import Mathlib

/-!
Verification of the SecureVault encrypted-vault persistence and key-management
subsystem (Sneed-Group/SecureVault-src).  The definitions below are a shallow
embedding of the JavaScript source: `src/js/database.js` (key derivation,
cipher glue, merge/save, import/export) and `src/js/auth.js` (session/auth
controller).  The cryptographic primitives themselves live in the external
crypto-js library, which is not part of the repository; they are modelled from
the specification as ideal primitives (see the individual doc comments), while
all the control flow, checks, candidate-key lists and state updates are
translated directly from the cited source lines.
-/

namespace SecureVault

/-- Fixed salt string used by the key-derivation code (src/js/database.js:52). -/
def defaultSalt : String := "SecureVaultSalt"

/-- Modelled from the spec: crypto-js `PBKDF2(password, salt, {keySize: 256/32,
iterations: 10000, hasher: SHA256})` rendered as a Base64 string
(src/js/database.js:55-62 calls it; crypto-js itself is not in the repository).
Modelled as an ideal deterministic KDF: a symbolic digest string that records
the scheme, the password and the salt. -/
def pbkdf2Sha256B64 (password salt : String) : String :=
  "k256b64|" ++ password ++ "|" ++ salt

/-- Modelled from the spec: crypto-js `PBKDF2(password, salt, {keySize: 256/32,
iterations: 10000})` with the default SHA-1 hasher, rendered as a hex string
(the legacy candidate at src/js/database.js:2053-2056).  Modelled as an ideal
deterministic KDF distinct from the SHA-256/Base64 one. -/
def pbkdf2Sha1Hex (password salt : String) : String :=
  "k1hex|" ++ password ++ "|" ++ salt

/-- Modelled from the spec: crypto-js `SHA256(s).toString()` (hex digest), the
one-way hash used for the stored `keyHash` (src/js/database.js:84).  Modelled
as an ideal one-way digest: a symbolic digest string of the input. -/
def sha256Hex (s : String) : String :=
  "sha256|" ++ s

/-- Modelled from the spec: a ciphertext produced by crypto-js
`AES.encrypt(JSON.stringify(payload), key, {mode: CBC, padding: Pkcs7})`
(src/js/database.js:113-119).  The cipher is modelled as an ideal symmetric
cipher over already-parsed payloads: the ciphertext determines the serialized
payload together with the passphrase it was encrypted under, decryption under
the same passphrase recovers the payload exactly, and decryption under any
other passphrase fails the padding/UTF-8/JSON integrity checks (the spec's
`DecryptionFailed`).  `JSON.parse (JSON.stringify x) = x` for serializable
values is absorbed by storing the payload itself. -/
structure Ciphertext (α : Type) where
  payload : α
  passphrase : String
deriving DecidableEq

/-- Drop leading whitespace characters from a character list. -/
def dropWhileWs : List Char → List Char
  | [] => []
  | c :: t => if c.isWhitespace then dropWhileWs t else c :: t

/-- Modelled from the spec: JavaScript `String.prototype.trim` (strip leading
and trailing whitespace), implemented structurally so that it evaluates by
kernel reduction. -/
def jsTrim (s : String) : String :=
  ⟨(dropWhileWs (dropWhileWs s.data).reverse).reverse⟩

/-- Embedding of `deriveKeyFromPassword` (src/js/database.js:43-67).  Returns
`none` for an empty password (the source logs and returns `null`).  Note the
source computes `normalizedSalt = 'SecureVaultSalt'` and ignores the `salt`
argument entirely, and trims the password. -/
def deriveKeyFromPassword (password : String) (salt : String) : Option String :=
  if password = "" then none
  else
    let normalizedPassword := jsTrim password
    let normalizedSalt := defaultSalt
    let _ := salt
    some (pbkdf2Sha256B64 normalizedPassword normalizedSalt)

/-- Persisted credential record, the `authData` object stored under the
`auth` key in localStorage (src/js/auth.js:54-59). -/
structure AuthData where
  salt : String
  keyHash : String
  createdAt : String
  updatedAt : String
deriving DecidableEq

/-- Embedding of `validatePassword` (src/js/database.js:75-92): recomputes the
derived key (with the default salt argument) and compares the SHA-256 hash of
it against the stored `keyHash`.  Total, hence never throws. -/
def validatePassword (password : String) (authData : Option AuthData) : Bool :=
  if password = "" then false
  else
    match authData with
    | none => false
    | some a =>
      match deriveKeyFromPassword password defaultSalt with
      | none => false
      | some derivedKey => sha256Hex derivedKey == a.keyHash

/-- Embedding of `encryptData` (src/js/database.js:99-127): fails when no
encryption key is set (the in-memory key is `none`, or the empty string which
is falsy in the source's `if (!encryptionKey)` check); otherwise JSON-serializes
the payload and encrypts it under the session key. -/
def encryptData {α : Type} (encryptionKey : Option String) (data : α) :
    Option (Ciphertext α) :=
  match encryptionKey with
  | none => none
  | some k => if k = "" then none else some ⟨data, k⟩

/-- Embedding of `decryptData` (src/js/database.js:134-177): fails when no key
is set or no ciphertext is supplied; AES-decrypts and then runs the integrity
checks (`sigBytes <= 0`, empty UTF-8 decode, `JSON.parse` failure), which in
the ideal-cipher model amount to the passphrase comparison. -/
def decryptData {α : Type} (encryptionKey : Option String)
    (encryptedData : Option (Ciphertext α)) : Option α :=
  match encryptionKey with
  | none => none
  | some k =>
    if k = "" then none
    else
      match encryptedData with
      | none => none
      | some c => if c.passphrase = k then some c.payload else none

/-!
Vault Document Model.  A JavaScript object collection (`docs`, `photos`,
`files`, keyed by id) is embedded as an association list from id strings to
item values, in property-insertion order; the item/extra-value type is a
parameter `α` standing for arbitrary JSON-serializable values.
-/

/-- A JavaScript object used as a mapping from ids to items, in insertion
order. -/
abbrev Coll (α : Type) := List (String × α)

/-- Property lookup `c[k]` on a JavaScript object (first matching key). -/
def Coll.find (c : Coll α) (k : String) : Option α :=
  match c with
  | [] => none
  | (k1, v) :: t => if k1 = k then some v else Coll.find t k

/-- Property assignment `c[k] = v` on a JavaScript object: an existing key
keeps its slot and gets the new value, a new key is appended. -/
def Coll.put (c : Coll α) (k : String) (v : α) : Coll α :=
  match c with
  | [] => [(k, v)]
  | (k1, v1) :: t => if k1 = k then (k1, v) :: t else (k1, v1) :: Coll.put t k v

/-- Embedding of `Object.assign(target, source)` (src/js/database.js:207,
212, 217): every enumerable property of `source` is assigned onto `target`
in order. -/
def Coll.assign (target source : Coll α) : Coll α :=
  source.foldl (fun acc kv => Coll.put acc kv.1 kv.2) target

/-- The `meta` block stamped by `saveToSecureStorage`
(src/js/database.js:229-233). -/
structure MetaInfo where
  version : Nat
  updatedAt : String
  encryptionMethod : String
deriving DecidableEq

/-- The decrypted Vault Document: top-level JavaScript object with the three
collections (each possibly absent), the `meta` block, and any other top-level
keys (`extra`, e.g. the `auth` key that `createUser` puts into the empty
vault). -/
structure VaultData (α : Type) where
  docs : Option (Coll α)
  files : Option (Coll α)
  photos : Option (Coll α)
  meta : Option MetaInfo
  extra : Coll α
deriving DecidableEq

/-- Merge of one optional collection of a partial update onto the base,
embedding `if (data.docs) { mergedData.docs = mergedData.docs || {};
Object.assign(mergedData.docs, data.docs); }` (src/js/database.js:205-218). -/
def mergeColl (base part : Option (Coll α)) : Option (Coll α) :=
  match part with
  | none => base
  | some p => some (Coll.assign (base.getD []) p)

/-- The merge step of `saveToSecureStorage` (src/js/database.js:193-233):
deep-clone the current vault data (pure here), apply each present collection
of the partial with `Object.assign`, copy every other top-level key of the
partial wholesale, then stamp a fresh `meta` block. -/
def mergeVaultData (base : Option (VaultData α)) (data : Option (VaultData α))
    (now : String) : VaultData α :=
  let m0 : VaultData α := base.getD ⟨none, none, none, none, []⟩
  let m1 : VaultData α :=
    match data with
    | none => m0
    | some d =>
      { docs := mergeColl m0.docs d.docs
        files := mergeColl m0.files d.files
        photos := mergeColl m0.photos d.photos
        meta := m0.meta
        extra := Coll.assign m0.extra d.extra }
  { m1 with meta := some ⟨1, now, "pbkdf2"⟩ }

/-- The collection-defaulting step after a successful decrypt
(src/js/database.js:2099-2102): `if (!decryptedData.docs) decryptedData.docs
= {};` and likewise for `files` and `photos`. -/
def ensureCollections (d : VaultData α) : VaultData α :=
  { d with
    docs := some (d.docs.getD [])
    files := some (d.files.getD [])
    photos := some (d.photos.getD []) }

/-!
Vault Envelope, vault files, and the mutable state of the program: the
module-level globals of src/js/database.js (`vaultData`, `encryptionKey`,
`vaultFile`, the Dexie `db.data` store) and the browser stores used by
src/js/auth.js (`localStorage['auth']`, `sessionStorage['sessionKey']`).
-/

/-- The Vault Envelope wire object `vaultFileObj` built by
`saveToSecureStorage` (src/js/database.js:251-261). -/
structure Envelope (α : Type) where
  type : String
  version : Nat
  timestamp : String
  data : Ciphertext (VaultData α)
deriving DecidableEq

/-- Construction of the envelope inside `saveToSecureStorage`
(src/js/database.js:243-261): encrypt the merged document, then wrap it with
the fixed type tag, version and timestamp. -/
def buildVaultFileObj (encryptionKey : Option String) (merged : VaultData α)
    (now : String) : Option (Envelope α) :=
  (encryptData encryptionKey merged).map
    (fun c => { type := "secure-vault", version := 1, timestamp := now, data := c })

/-- A user-selected vault file as seen by the import path: unreadable
(`readVaultFile` fails), unparsable (`JSON.parse` throws), or a parsed JSON
object with an optional `type` tag and an optional `data` ciphertext field. -/
inductive VFile (α : Type) where
  | unreadable
  | badJson
  | parsed (typeTag : Option String) (data : Option (Ciphertext (VaultData α)))
deriving DecidableEq

/-- The parsed-object view of an envelope, as produced by reading the exported
JSON file back in. -/
def Envelope.toVFile (e : Envelope α) : VFile α :=
  VFile.parsed (some e.type) (some e.data)

/-- The mutable state: `auth` is `localStorage['auth']`, `sessionKey` is
`sessionStorage['sessionKey']`, `encryptionKey`/`vaultData`/`vaultFile` are
the module globals of src/js/database.js:5-7, and `dbStore` is the encrypted
`vault_data` record in the Dexie `db.data` table. -/
structure AppState (α : Type) where
  auth : Option AuthData
  sessionKey : Option String
  encryptionKey : Option String
  vaultData : Option (VaultData α)
  vaultFile : Option (VFile α)
  dbStore : Option (Ciphertext (VaultData α))
deriving DecidableEq

/-- Embedding of `setEncryptionKey` (src/js/database.js:13-28): an empty
(falsy) key is rejected and the previous key is kept; otherwise the key is
stored. -/
def setEncryptionKey (st : AppState α) (key : String) : Bool × AppState α :=
  if key = "" then (false, st) else (true, { st with encryptionKey := some key })

/-- Embedding of `saveToSecureStorage` (src/js/database.js:185-280): fails
when no encryption key is set; otherwise merges the partial onto the current
vault data, encrypts the merged document into an envelope (failure to encrypt
aborts before any state change), optionally downloads the file, and replaces
the in-memory `vaultData` with the merged document.  Nothing durable is
written. -/
def saveToSecureStorage (st : AppState α) (data : Option (VaultData α))
    (downloadFile : Bool) (now : String) : Bool × AppState α :=
  match st.encryptionKey with
  | none => (false, st)
  | some ek =>
    if ek = "" then (false, st)
    else
      let merged := mergeVaultData st.vaultData data now
      match buildVaultFileObj (some ek) merged now with
      | none => (false, st)
      | some _vaultFileObj =>
        let _ := downloadFile
        (true, { st with vaultData := some merged })

/-!
Import with password: src/js/database.js:2001-2128.
-/

/-- The ordered candidate-key list built by `importDatabaseWithPassword`
(src/js/database.js:2045-2060): the current Base64 PBKDF2 key, the "no salt"
variant, the legacy hex PBKDF2 key, and finally the raw password.  A `none`
entry (the source's `null` key) and an empty string are falsy and are skipped
by the `if (!keyObj.key) continue` guard in the loop. -/
def candidateKeys (password : String) : List (Option String) :=
  [ deriveKeyFromPassword password defaultSalt,
    deriveKeyFromPassword password "",
    some (pbkdf2Sha1Hex password "SecureVaultSalt"),
    some password ]

/-- The decryption-attempt loop of `importDatabaseWithPassword`
(src/js/database.js:2063-2080): for each candidate key in order, skip it if
falsy, otherwise `setEncryptionKey` it (mutating the module global) and try
`decryptData`; stop at the first candidate whose result is a (non-null)
object.  Returns the loop's result together with the final value of the
`encryptionKey` global. -/
def tryKeys (c : Ciphertext (VaultData α)) :
    List (Option String) → Option String →
    Option (VaultData α × String) × Option String
  | [], ek => (none, ek)
  | none :: rest, ek => tryKeys c rest ek
  | some k :: rest, ek =>
    if k = "" then tryKeys c rest ek
    else
      match decryptData (some k) (some c) with
      | some d => (some (d, k), some k)
      | none => tryKeys c rest (some k)

/-- The outcome of one run of `importDatabaseWithPassword`, before the
`catch` block collapses every failure into `false`: success with the decoded
document and the key that worked, or one of the distinct thrown errors
("Failed to read vault file", "Invalid vault file format - not valid JSON",
"Invalid vault file format - missing required fields", "Invalid vault login
password or corrupt file"), or the direct `return false` on a missing file. -/
inductive ImportOutcome (α : Type) where
  | success (doc : VaultData α) (usedKey : String)
  | noFile
  | readFailed
  | invalidJson
  | invalidStructure
  | wrongPassword
deriving DecidableEq

/-- Embedding of `importDatabaseWithPassword` (src/js/database.js:2001-2128)
up to the final `catch`: validates the file and its envelope structure, runs
the candidate-key loop (whose `setEncryptionKey` calls leak into the state
even when every candidate fails), and on success re-points the key at the
latest derivation if a legacy candidate won, adopts the file, defaults the
three collections, installs the decoded document and saves the working key
into session storage. -/
def dbImport (st : AppState α) (file : Option (VFile α)) (password : String) :
    ImportOutcome α × AppState α :=
  match file with
  | none => (ImportOutcome.noFile, st)
  | some VFile.unreadable => (ImportOutcome.readFailed, st)
  | some VFile.badJson => (ImportOutcome.invalidJson, st)
  | some (VFile.parsed typeTag data) =>
    match typeTag, data with
    | some t, some c =>
      if t = "secure-vault" then
        match tryKeys c (candidateKeys password) st.encryptionKey with
        | (none, ek1) => (ImportOutcome.wrongPassword, { st with encryptionKey := ek1 })
        | (some (d, usedKey), ek1) =>
          let ek2 :=
            if some usedKey = deriveKeyFromPassword password defaultSalt then ek1
            else
              match deriveKeyFromPassword password defaultSalt with
              | some latestKey => if latestKey = "" then ek1 else some latestKey
              | none => ek1
          let d2 := ensureCollections d
          (ImportOutcome.success d2 usedKey,
            { st with
              encryptionKey := ek2
              vaultFile := file
              vaultData := some d2
              sessionKey := if usedKey = "" then st.sessionKey else some usedKey })
      else (ImportOutcome.invalidStructure, st)
    | _, _ => (ImportOutcome.invalidStructure, st)

/-- The boolean actually returned to the caller of
`importDatabaseWithPassword`: `true` on success and `false` in every failure
case, because the `catch` at src/js/database.js:2124-2127 swallows each of the
distinct thrown errors. -/
def dbImportBool (st : AppState α) (file : Option (VFile α)) (password : String) :
    Bool :=
  match (dbImport st file password).1 with
  | ImportOutcome.success _ _ => true
  | _ => false

/-!
Session/Auth Controller: src/js/auth.js.  The random salt and the timestamps
are passed in as parameters (`CryptoJS.lib.WordArray.random(16).toString()`
and `new Date().toISOString()` in the source).
-/

/-- Embedding of `authenticateUser` (src/js/auth.js:88-125): rejects an empty
password or a missing credential record, validates the password, and on
success re-derives the key and installs it as the session key and the
database encryption key. -/
def authenticateUser (st : AppState α) (password : String) : Bool × AppState α :=
  if password = "" then (false, st)
  else
    match st.auth with
    | none => (false, st)
    | some authData =>
      if validatePassword password (some authData) then
        match deriveKeyFromPassword password authData.salt with
        | some derivedKey =>
          let st1 := { st with sessionKey := some derivedKey }
          (true, (setEncryptionKey st1 derivedKey).2)
        | none => (true, st)
      else (false, st)

/-- Embedding of the synchronous `createUser` (src/js/auth.js:40-81):
generates a salt, derives a key, stores the credential record, installs the
session and encryption keys, and initializes a fresh empty database
(`createEmptyDatabase`, src/js/database.js:2265-2287, clears the persisted
`db.data` store). -/
def createUser (st : AppState α) (password salt now : String) :
    Bool × AppState α :=
  if password = "" then (false, st)
  else
    match deriveKeyFromPassword password salt with
    | none => (false, st)
    | some derivedKey =>
      let keyHash := sha256Hex derivedKey
      let authData : AuthData := ⟨salt, keyHash, now, now⟩
      let st1 := { st with auth := some authData, sessionKey := some derivedKey }
      let st2 := (setEncryptionKey st1 derivedKey).2
      (true, { st2 with dbStore := none })

/-- Embedding of the asynchronous `createUser` (src/js/auth.js:428-495):
like the synchronous one but it builds the empty vault structure
`{docs: {}, photos: {}, files: {}, auth: authData}` (lines 473-479) and saves
it through `saveToSecureStorage`; the returned boolean is `true` regardless
of whether that save succeeded (the source only logs `saved`).  `authVal` is
the JSON value of the credential record stored under the vault's `auth` key. -/
def createUserAsync (st : AppState α) (password salt now : String) (authVal : α) :
    Bool × AppState α :=
  if password = "" then (false, st)
  else
    match deriveKeyFromPassword password salt with
    | none => (false, st)
    | some derivedKey =>
      let keyHash := sha256Hex derivedKey
      let authData : AuthData := ⟨salt, keyHash, now, now⟩
      let st1 := { st with auth := some authData, sessionKey := some derivedKey }
      let st2 := (setEncryptionKey st1 derivedKey).2
      let emptyVault : VaultData α :=
        { docs := some [], photos := some [], files := some [],
          meta := none, extra := [("auth", authVal)] }
      let (_saved, st3) := saveToSecureStorage st2 (some emptyVault) false now
      (true, st3)

/-- Embedding of `changePassword` (src/js/auth.js:133-176): re-authenticates
with the current password, then derives a key from the new password with a
fresh salt, rewrites the credential record (preserving `createdAt`), and
swaps the session and encryption keys.  The persisted/exported vault
ciphertext is not touched. -/
def changePassword (st : AppState α) (currentPassword newPassword salt now : String) :
    Bool × AppState α :=
  if currentPassword = "" ∨ newPassword = "" then (false, st)
  else
    let (isAuthenticated, st1) := authenticateUser st currentPassword
    if isAuthenticated then
      match deriveKeyFromPassword newPassword salt with
      | none => (false, st1)
      | some derivedKey =>
        let keyHash := sha256Hex derivedKey
        match st1.auth with
        | none => (false, st1)
        | some currentAuthData =>
          let authData : AuthData := ⟨salt, keyHash, currentAuthData.createdAt, now⟩
          let st2 := { st1 with auth := some authData, sessionKey := some derivedKey }
          (true, (setEncryptionKey st2 derivedKey).2)
    else (false, st1)

/-- Embedding of `importDatabase` (src/js/database.js:2570-2638) on the vault
files this development models: it rejects when no file is given or no
encryption key is set, rejects unreadable files (`reader.onerror`) and
malformed JSON, and rejects every parsed vault-envelope object at the
`!importData.metadata || !importData.metadata.exportDate` compatibility check
(line 2601), since a Vault Envelope has `type`/`data` fields and no
`metadata.exportDate`.  Each rejection propagates to the caller's `catch`. -/
def importDatabase (st : AppState α) (file : Option (VFile α)) : Bool × AppState α :=
  match file with
  | none => (false, st)
  | some f =>
    match st.encryptionKey with
    | none => (false, st)
    | some _encryptionKey =>
      match f with
      | VFile.unreadable => (false, st)
      | VFile.badJson => (false, st)
      | VFile.parsed _ _ => (false, st)

/-- Embedding of the auth-level `importDatabaseWithPassword`
(src/js/auth.js:194-211): it first creates a brand-new user with the supplied
password — overwriting the stored credential record and clearing the
persisted database — and only then attempts `importDatabase` on the chosen
file, returning that result. -/
def authImportDatabaseWithPassword (st : AppState α) (file : Option (VFile α))
    (password salt now : String) : Bool × AppState α :=
  match file with
  | none => (false, st)
  | some _ =>
    if password = "" then (false, st)
    else
      let (created, st1) := createUser st password salt now
      if created then importDatabase st1 file
      else (false, st1)

/-!
Specification-level definitions used to state the claims: the candidate-key
order the spec describes, and the first-successful-candidate view of the
decryption loop.
-/

/-- Modelled from the spec's words (for comparison with `candidateKeys`):
"the current salt convention first, then the legacy conventions (empty salt,
raw password as key, digest-of-password as key)". -/
def claimedCandidateKeys (password : String) : List (Option String) :=
  [ deriveKeyFromPassword password defaultSalt,
    deriveKeyFromPassword password "",
    some password,
    some (sha256Hex password) ]

/-- First candidate key in a list whose decryption of `c` yields a document,
the stateless view of the `tryKeys` loop. -/
def firstDecrypting (c : Ciphertext (VaultData α)) :
    List (Option String) → Option (VaultData α × String)
  | [] => none
  | none :: rest => firstDecrypting c rest
  | some k :: rest =>
    if k = "" then firstDecrypting c rest
    else
      match decryptData (some k) (some c) with
      | some d => some (d, k)
      | none => firstDecrypting c rest

/-- Lookup through an optional collection: `none` when the collection is
absent. -/
def collFind (o : Option (Coll α)) (k : String) : Option α :=
  match o with
  | none => none
  | some c => Coll.find c k

/-- Deep equality of two vault documents as JavaScript values: the same
collections are present, corresponding collections contain the same mapping
(key order is irrelevant to deep equality), the extra top-level keys agree,
and the `meta` blocks agree. -/
def VaultData.DeepEq (x y : VaultData α) : Prop :=
  x.docs.isSome = y.docs.isSome ∧ x.files.isSome = y.files.isSome ∧
  x.photos.isSome = y.photos.isSome ∧
  (∀ k, collFind x.docs k = collFind y.docs k) ∧
  (∀ k, collFind x.files k = collFind y.files k) ∧
  (∀ k, collFind x.photos k = collFind y.photos k) ∧
  (∀ k, Coll.find x.extra k = Coll.find y.extra k) ∧
  x.meta = y.meta

/-!
Helper lemmas about the embedded operations.
-/

theorem Coll.find_put (c : Coll α) (k1 : String) (v : α) (k : String) :
    (Coll.put c k1 v).find k = if k1 = k then some v else c.find k := by
  induction c with
  | nil => simp [Coll.put, Coll.find]
  | cons hd t ih =>
    obtain ⟨k2, v2⟩ := hd
    by_cases h1 : k2 = k1
    · subst h1
      by_cases h2 : k2 = k <;> simp [Coll.put, Coll.find, h2]
    · by_cases h2 : k2 = k
      · subst h2
        have h3 : ¬ k1 = k2 := fun h => h1 h.symm
        simp [Coll.put, Coll.find, h1, h3]
      · simp [Coll.put, Coll.find, h1, h2, ih]

theorem Coll.find_eq_none_of_not_mem {c : Coll α} {k : String}
    (h : k ∉ c.map Prod.fst) : c.find k = none := by
  induction c with
  | nil => rfl
  | cons hd t ih =>
    simp only [List.map_cons, List.mem_cons] at h
    push_neg at h
    have h1 : ¬ hd.1 = k := fun he => h.1 he.symm
    obtain ⟨k2, v2⟩ := hd
    simpa [Coll.find, h1] using ih h.2

theorem Coll.assign_cons (t : Coll α) (kv : String × α) (s : Coll α) :
    Coll.assign t (kv :: s) = Coll.assign (Coll.put t kv.1 kv.2) s := rfl

theorem Coll.find_assign (t : Coll α) {s : Coll α}
    (hs : (s.map Prod.fst).Nodup) (k : String) :
    (Coll.assign t s).find k = Option.or (s.find k) (t.find k) := by
  induction s generalizing t with
  | nil => simp [Coll.assign, Coll.find, Option.or]
  | cons hd s ih =>
    obtain ⟨k1, v1⟩ := hd
    simp only [List.map_cons, List.nodup_cons] at hs
    rw [Coll.assign_cons, ih (Coll.put t k1 v1) hs.2]
    by_cases h1 : k1 = k
    · subst h1
      have hnone : Coll.find s k1 = none :=
        Coll.find_eq_none_of_not_mem hs.1
      simp [Coll.find, hnone, Coll.find_put, Option.or]
    · simp [Coll.find, h1, Coll.find_put]

theorem mergeColl_isSome (b p : Option (Coll α)) :
    (mergeColl b p).isSome = (b.isSome || p.isSome) := by
  cases p <;> cases b <;> simp [mergeColl]

theorem collFind_mergeColl (b : Option (Coll α)) {p : Option (Coll α)}
    (hp : ∀ c, p = some c → (c.map Prod.fst).Nodup) (k : String) :
    collFind (mergeColl b p) k = Option.or (collFind p k) (collFind b k) := by
  cases p with
  | none => simp [mergeColl, collFind, Option.or]
  | some c =>
    have hc := hp c rfl
    cases b with
    | none => simp [mergeColl, collFind, Coll.find_assign _ hc, Coll.find]
    | some cb => simp [mergeColl, collFind, Coll.find_assign _ hc]

theorem tryKeys_fst (c : Ciphertext (VaultData α)) (l : List (Option String))
    (ek : Option String) : (tryKeys c l ek).1 = firstDecrypting c l := by
  induction l generalizing ek with
  | nil => rfl
  | cons hd rest ih =>
    cases hd with
    | none => simpa [tryKeys, firstDecrypting] using ih ek
    | some k =>
      by_cases hk : k = ""
      · simpa [tryKeys, firstDecrypting, hk] using ih ek
      · simp only [tryKeys, firstDecrypting, hk, if_neg hk]
        cases hd : decryptData (some k) (some c : Option (Ciphertext (VaultData α))) with
        | some d => simp [hd]
        | none => simpa [hd] using ih (some k)

theorem firstDecrypting_eq_none (c : Ciphertext (VaultData α))
    {l : List (Option String)} (h : ∀ x ∈ l, x ≠ some c.passphrase) :
    firstDecrypting c l = none := by
  induction l with
  | nil => rfl
  | cons hd rest ih =>
    have hrest : ∀ x ∈ rest, x ≠ some c.passphrase := by
      intro x hx
      exact h x (List.mem_cons_of_mem _ hx)
    cases hd with
    | none => simpa [firstDecrypting] using ih hrest
    | some k =>
      have hk : k ≠ c.passphrase := by
        intro he
        exact h (some k) (List.mem_cons_self _ _) (by rw [he])
      by_cases hk0 : k = ""
      · simpa [firstDecrypting, hk0] using ih hrest
      · have hne : ¬ c.passphrase = k := fun he => hk he.symm
        simpa [firstDecrypting, hk0, decryptData, hne] using ih hrest

theorem pbkdf2Sha256B64_ne_empty (a b : String) : pbkdf2Sha256B64 a b ≠ "" := by
  intro h
  have h2 := congrArg String.length h
  simp [pbkdf2Sha256B64, String.length_append] at h2
  exact absurd h2.1.1.1 (by decide)

theorem deriveKey_ne_empty {p s k : String}
    (h : deriveKeyFromPassword p s = some k) : k ≠ "" := by
  by_cases hp : p = ""
  · simp [deriveKeyFromPassword, hp] at h
  · simp only [deriveKeyFromPassword, hp, if_false] at h
    have hk := Option.some.inj h
    rw [← hk]
    exact pbkdf2Sha256B64_ne_empty _ _

theorem ensureCollections_eq_self {d : VaultData α}
    (h1 : d.docs.isSome) (h2 : d.files.isSome) (h3 : d.photos.isSome) :
    ensureCollections d = d := by
  obtain ⟨docs, files, photos, meta, extra⟩ := d
  cases docs <;> cases files <;> cases photos <;>
    simp_all [ensureCollections]

/-!
Concrete fixtures used by the witness and counterexample theorems.
-/

/-- A small concrete vault document with all three collections present. -/
def docA : VaultData String :=
  ⟨some [("d1", "hello")], some [], some [], none, []⟩

/-- The key the current derivation produces for the password "pw". -/
def keyPw : String := pbkdf2Sha256B64 "pw" defaultSalt

/-- An initial application state with nothing set. -/
def stA : AppState String := ⟨none, none, none, none, none, none⟩

/-!
Claim theorems.
-/

/-- C1: Cipher round-trip — with the encryption key set to any key `k`,
`decryptData (encryptData x) = x` for every serializable payload `x`; and at
the codec level, the envelope `saveToSecureStorage` builds for a Vault
Document under the key derived from a password decodes back, via
`importDatabaseWithPassword` with that same password, to the same document. -/
theorem claim_C1_roundtrip {α : Type} :
    (∀ (k : String) (x : α), k ≠ "" →
      decryptData (some k) (encryptData (some k) x) = some x) ∧
    (∀ (p k now : String) (d : VaultData α) (st : AppState α) (env : Envelope α),
      deriveKeyFromPassword p defaultSalt = some k →
      d.docs.isSome → d.files.isSome → d.photos.isSome →
      buildVaultFileObj (some k) d now = some env →
      (dbImport st (some env.toVFile) p).1 = ImportOutcome.success d k) := by
  constructor
  · intro k x hk
    simp [encryptData, decryptData, hk]
  · intro p k now d st env hd hdocs hfiles hphotos henv
    have hk0 : k ≠ "" := deriveKey_ne_empty hd
    have henc : encryptData (some k) d = some ⟨d, k⟩ := by
      simp [encryptData, hk0]
    rw [buildVaultFileObj, henc] at henv
    simp only [Option.map] at henv
    obtain rfl := Option.some.inj henv
    have hdec : decryptData (some k) (some (⟨d, k⟩ : Ciphertext (VaultData α)))
        = some d := by
      simp [decryptData, hk0]
    have htry : tryKeys (⟨d, k⟩ : Ciphertext (VaultData α))
        (candidateKeys p) st.encryptionKey = (some (d, k), some k) := by
      simp [candidateKeys, hd, tryKeys, hk0, hdec]
    simp [Envelope.toVFile, dbImport, htry,
      ensureCollections_eq_self hdocs hfiles hphotos]

/-- C1 witness: the round-trip theorem applied at a concrete key, payload,
password and document. -/
theorem claim_C1_roundtrip_witness :
    decryptData (some "key1") (encryptData (some "key1") "x") = some "x" ∧
    (dbImport stA
        (some (Envelope.toVFile ⟨"secure-vault", 1, "t1", ⟨docA, keyPw⟩⟩)) "pw").1
      = ImportOutcome.success docA keyPw := by
  constructor
  · exact claim_C1_roundtrip.1 "key1" "x" (by decide)
  · exact claim_C1_roundtrip.2 "pw" keyPw "t1" docA stA
      ⟨"secure-vault", 1, "t1", ⟨docA, keyPw⟩⟩
      (by decide) (by decide) (by decide) (by decide) (by decide)

/-- C2: Wrong-key rejection — decrypting a ciphertext produced under `k1`
with the encryption key set to a different `k2` returns `null`, and importing
an envelope whose ciphertext was produced under a key that no candidate of
the supplied password matches fails with the wrong-password error rather than
returning a document. -/
theorem claim_C2_wrong_key {α : Type} :
    (∀ (k1 k2 : String) (x : α), k1 ≠ k2 →
      decryptData (some k2) (encryptData (some k1) x) = none) ∧
    (∀ (p k : String) (d : VaultData α) (st : AppState α),
      (∀ c ∈ candidateKeys p, c ≠ some k) →
      (dbImport st
          (some (VFile.parsed (some "secure-vault") (some ⟨d, k⟩))) p).1
        = ImportOutcome.wrongPassword) := by
  constructor
  · intro k1 k2 x hne
    by_cases h1 : k1 = ""
    · simp [encryptData, decryptData, h1]
    · by_cases h2 : k2 = ""
      · simp [encryptData, decryptData, h1, h2]
      · have : ¬ (k1 = k2) := hne
        simp [encryptData, decryptData, h1, h2, this]
  · intro p k d st hall
    have h1 : (tryKeys (⟨d, k⟩ : Ciphertext (VaultData α))
        (candidateKeys p) st.encryptionKey).1 = none := by
      rw [tryKeys_fst]
      exact firstDecrypting_eq_none _ hall
    rcases htk : tryKeys (⟨d, k⟩ : Ciphertext (VaultData α))
        (candidateKeys p) st.encryptionKey with ⟨r, ek⟩
    rw [htk] at h1
    simp only at h1
    subst h1
    simp [dbImport, htk]

/-- C2 witness: wrong-key rejection at a concrete pair of keys and a concrete
envelope whose key matches no candidate for the password "pw". -/
theorem claim_C2_wrong_key_witness :
    decryptData (some "b") (encryptData (some "a") "x") = none ∧
    (dbImport stA
        (some (VFile.parsed (some "secure-vault") (some ⟨docA, "zzz"⟩))) "pw").1
      = ImportOutcome.wrongPassword := by
  constructor
  · exact claim_C2_wrong_key.1 "a" "b" "x" (by decide)
  · exact claim_C2_wrong_key.2 "pw" "zzz" docA stA (by decide)

/-- C9: Password verification — `validatePassword` returns `true` exactly
when the SHA-256 hash of the key derived from the password (equivalently,
with the record's salt, which the derivation ignores) equals the stored
`keyHash`; it returns `false` on an empty password or a missing record, and
being a total function it never throws. -/
theorem claim_C9_validate_password : ∀ (p : String) (a : AuthData),
    (validatePassword p (some a) = true ↔
      p ≠ "" ∧ ∃ k, deriveKeyFromPassword p a.salt = some k ∧
        sha256Hex k = a.keyHash) ∧
    validatePassword "" (some a) = false ∧
    validatePassword p none = false := by
  intro p a
  refine ⟨?_, by simp [validatePassword], by simp [validatePassword]⟩
  by_cases hp : p = ""
  · simp [validatePassword, hp]
  · simp [validatePassword, deriveKeyFromPassword, hp]

/-- C10: the derived key is independent of the salt argument — the source
substitutes the fixed salt `'SecureVaultSalt'` for whatever salt it is given
(src/js/database.js:52), so for any non-empty password the derived keys for
any two salts coincide, and `validatePassword` gives the same verdict no
matter what salt the credential record holds. -/
theorem claim_C10_salt_ignored : ∀ (p s1 s2 : String), p ≠ "" →
    deriveKeyFromPassword p s1 = deriveKeyFromPassword p s2 ∧
    (∀ (a : AuthData) (s : String),
      validatePassword p (some { a with salt := s }) =
        validatePassword p (some a)) := by
  intro p s1 s2 hp
  constructor
  · simp [deriveKeyFromPassword]
  · intro a s
    rfl

/-- C10 witness: salt independence at a concrete password and two concrete
salts. -/
theorem claim_C10_salt_ignored_witness :
    deriveKeyFromPassword "pw" "saltA" = deriveKeyFromPassword "pw" "saltB" ∧
    validatePassword "pw" (some ⟨"other", "h", "t", "t"⟩) =
      validatePassword "pw" (some ⟨"mine", "h", "t", "t"⟩) := by
  constructor
  · exact (claim_C10_salt_ignored "pw" "saltA" "saltB" (by decide)).1
  · exact (claim_C10_salt_ignored "pw" "x" "y" (by decide)).2
      ⟨"mine", "h", "t", "t"⟩ "other"

/-- C5 counterexample: the source's candidate-key list for the password "pw"
differs from the list the claim describes — the claimed list contains a
digest-of-password candidate that the code never tries (and puts the raw
password before it), while the code's third candidate is the legacy hex
PBKDF2 key and the raw password comes last; consequently an envelope
encrypted under the digest-of-password key is rejected by the code. -/
theorem claim_C5_counterexample :
    candidateKeys "pw" ≠ claimedCandidateKeys "pw" ∧
    some (sha256Hex "pw") ∈ claimedCandidateKeys "pw" ∧
    some (sha256Hex "pw") ∉ candidateKeys "pw" ∧
    (dbImport stA (some (VFile.parsed (some "secure-vault")
        (some ⟨docA, sha256Hex "pw"⟩))) "pw").1 = ImportOutcome.wrongPassword := by
  decide

/-- C5 (amended): the decoder derives candidate keys in the fixed order
current-salt PBKDF2, "no salt" PBKDF2 (identical to the first because the
derivation ignores its salt argument), legacy hex PBKDF2, and finally the raw
password — there is no digest-of-password candidate; it attempts decryption
with each candidate in that order and accepts the first whose decryption
result is an object, defaulting the collections afterwards. -/
theorem claim_C5_candidate_order {α : Type} :
    (∀ (st : AppState α) (p : String) (c : Ciphertext (VaultData α)),
      (dbImport st (some (VFile.parsed (some "secure-vault") (some c))) p).1 =
        match firstDecrypting c (candidateKeys p) with
        | some (d, k) => ImportOutcome.success (ensureCollections d) k
        | none => ImportOutcome.wrongPassword) ∧
    (∀ p : String, candidateKeys p =
      [ deriveKeyFromPassword p defaultSalt,
        deriveKeyFromPassword p "",
        some (pbkdf2Sha1Hex p "SecureVaultSalt"),
        some p ] ∧
      deriveKeyFromPassword p "" = deriveKeyFromPassword p defaultSalt) := by
  constructor
  · intro st p c
    rcases htk : tryKeys c (candidateKeys p) st.encryptionKey with ⟨r, ek⟩
    have hr : r = firstDecrypting c (candidateKeys p) := by
      have h := tryKeys_fst c (candidateKeys p) st.encryptionKey
      rw [htk] at h
      exact h
    rw [← hr]
    cases r with
    | none => simp [dbImport, htk]
    | some dk =>
      obtain ⟨d, k⟩ := dk
      simp [dbImport, htk]
  · intro p
    exact ⟨rfl, rfl⟩

/-- C6 counterexample: the caller of `importDatabaseWithPassword` cannot
distinguish the two failure kinds — a malformed-JSON file and a well-formed
envelope that no candidate key decrypts produce different internal errors but
the identical caller-visible result `false`. -/
theorem claim_C6_counterexample :
    (dbImport stA (some (VFile.badJson : VFile String)) "pw").1
      = ImportOutcome.invalidJson ∧
    (dbImport stA (some (VFile.parsed (some "secure-vault")
        (some ⟨docA, "nokey"⟩))) "pw").1 = ImportOutcome.wrongPassword ∧
    dbImportBool stA (some (VFile.badJson : VFile String)) "pw"
      = dbImportBool stA (some (VFile.parsed (some "secure-vault")
          (some ⟨docA, "nokey"⟩))) "pw" := by
  decide

/-- C6 (amended): internally the decoder raises the invalid-format error
exactly when the file is not valid JSON or the parsed object's type tag or
`data` field is missing/wrong, and the wrong-password error exactly when the
envelope is well-formed but every candidate key fails; but the exported
function catches both and returns `false`, so the caller observes only a
boolean and cannot distinguish the two failure kinds. -/
theorem claim_C6_error_discrimination {α : Type} :
    ∀ (st : AppState α) (f : VFile α) (p : String),
      (((dbImport st (some f) p).1 = ImportOutcome.invalidJson ∨
        (dbImport st (some f) p).1 = ImportOutcome.invalidStructure) ↔
        (f = VFile.badJson ∨
          ∃ t c, f = VFile.parsed t c ∧ (t ≠ some "secure-vault" ∨ c = none))) ∧
      ((dbImport st (some f) p).1 = ImportOutcome.wrongPassword ↔
        (∃ c, f = VFile.parsed (some "secure-vault") (some c) ∧
          firstDecrypting c (candidateKeys p) = none)) ∧
      (dbImportBool st (some f) p = true ↔
        ∃ d k, (dbImport st (some f) p).1 = ImportOutcome.success d k) := by
  intro st f p
  cases f with
  | unreadable => simp [dbImport, dbImportBool]
  | badJson => simp [dbImport, dbImportBool]
  | parsed t c =>
    match t, c with
    | none, none =>
      simp [dbImport, dbImportBool]
      exact ⟨none, none, ⟨rfl, rfl⟩, Or.inl (by simp)⟩
    | none, some c =>
      simp [dbImport, dbImportBool]
      exact ⟨none, some c, ⟨rfl, rfl⟩, Or.inl (by simp)⟩
    | some t, none =>
      simp [dbImport, dbImportBool]
      exact ⟨some t, none, ⟨rfl, rfl⟩, Or.inr rfl⟩
    | some t, some c =>
      by_cases ht : t = "secure-vault"
      · subst ht
        rcases htk : tryKeys c (candidateKeys p) st.encryptionKey with ⟨r, ek⟩
        have hr : r = firstDecrypting c (candidateKeys p) := by
          have h := tryKeys_fst c (candidateKeys p) st.encryptionKey
          rw [htk] at h
          exact h
        cases r with
        | none =>
          simp [dbImport, dbImportBool, htk, ← hr]
        | some dk =>
          obtain ⟨d, k⟩ := dk
          simp [dbImport, dbImportBool, htk, ← hr]
      · simp [dbImport, dbImportBool, ht]
        exact ⟨some t, some c, ⟨rfl, rfl⟩, Or.inl (by simp [ht])⟩

/-- C7: Collections always present — any successfully decoded document and
the vault document installed by a successful `createUser` have all of `docs`,
`files` and `photos` present (possibly empty). -/
theorem claim_C7_collections_present {α : Type} :
    (∀ (st : AppState α) (f : Option (VFile α)) (p : String)
        (d : VaultData α) (k : String),
      (dbImport st f p).1 = ImportOutcome.success d k →
      d.docs.isSome ∧ d.files.isSome ∧ d.photos.isSome) ∧
    (∀ (st : AppState α) (p salt now : String) (a : α) (d : VaultData α),
      (createUserAsync st p salt now a).1 = true →
      (createUserAsync st p salt now a).2.vaultData = some d →
      d.docs.isSome ∧ d.files.isSome ∧ d.photos.isSome) := by
  constructor
  · intro st f p d k h
    match f with
    | none => simp [dbImport] at h
    | some VFile.unreadable => simp [dbImport] at h
    | some VFile.badJson => simp [dbImport] at h
    | some (VFile.parsed t c) =>
      match t, c with
      | none, none => simp [dbImport] at h
      | none, some c => simp [dbImport] at h
      | some t, none => simp [dbImport] at h
      | some t, some c =>
        by_cases ht : t = "secure-vault"
        · subst ht
          rcases htk : tryKeys c (candidateKeys p) st.encryptionKey with ⟨r, ek⟩
          cases r with
          | none => simp [dbImport, htk] at h
          | some dk =>
            obtain ⟨d0, k0⟩ := dk
            have hcalc : (dbImport st
                (some (VFile.parsed (some "secure-vault") (some c))) p).1
                = ImportOutcome.success (ensureCollections d0) k0 := by
              simp [dbImport, htk]
            rw [hcalc] at h
            injection h with hd2 hk2
            rw [← hd2]
            exact ⟨rfl, rfl, rfl⟩
        · simp [dbImport, ht] at h
  · intro st p salt now a d h1 h2
    by_cases hp : p = ""
    · simp [createUserAsync, hp] at h1
    · cases hd : deriveKeyFromPassword p salt with
      | none => simp [createUserAsync, hp, hd] at h1
      | some dk =>
        have hdk : dk ≠ "" := deriveKey_ne_empty hd
        simp only [createUserAsync, hp, hd, if_false, setEncryptionKey,
          saveToSecureStorage, buildVaultFileObj, encryptData, hdk,
          if_neg hdk] at h2
        simp only [Option.map] at h2
        obtain rfl := Option.some.inj h2
        simp [mergeVaultData, mergeColl]

/-- C7 witness: a concrete successful import of an envelope whose document
lacks every collection, and a concrete vault creation, both yielding
documents with the three collections present. -/
theorem claim_C7_collections_present_witness :
    ((dbImport stA (some (VFile.parsed (some "secure-vault")
        (some ⟨⟨none, none, none, none, []⟩, keyPw⟩))) "pw").1
      = ImportOutcome.success ⟨some [], some [], some [], none, []⟩ keyPw) ∧
    ((⟨some [], some [], some [], none, []⟩ : VaultData String).docs.isSome ∧
      (⟨some [], some [], some [], none, []⟩ : VaultData String).files.isSome ∧
      (⟨some [], some [], some [], none, []⟩ : VaultData String).photos.isSome) ∧
    ((createUserAsync stA "pw" "s1" "t1" "av").1 = true) ∧
    ((createUserAsync stA "pw" "s1" "t1" "av").2.vaultData
      = some ⟨some [], some [], some [], some ⟨1, "t1", "pbkdf2"⟩,
              [("auth", "av")]⟩) ∧
    ((⟨some [], some [], some [], some ⟨1, "t1", "pbkdf2"⟩,
        [("auth", "av")]⟩ : VaultData String).docs.isSome ∧
      (⟨some [], some [], some [], some ⟨1, "t1", "pbkdf2"⟩,
        [("auth", "av")]⟩ : VaultData String).files.isSome ∧
      (⟨some [], some [], some [], some ⟨1, "t1", "pbkdf2"⟩,
        [("auth", "av")]⟩ : VaultData String).photos.isSome) := by
  have h1 : (dbImport stA (some (VFile.parsed (some "secure-vault")
      (some ⟨⟨none, none, none, none, []⟩, keyPw⟩))) "pw").1
      = ImportOutcome.success ⟨some [], some [], some [], none, []⟩ keyPw := by
    decide
  have h2 : (createUserAsync stA "pw" "s1" "t1" "av").1 = true := by decide
  have h3 : (createUserAsync stA "pw" "s1" "t1" "av").2.vaultData
      = some ⟨some [], some [], some [], some ⟨1, "t1", "pbkdf2"⟩,
              [("auth", "av")]⟩ := by decide
  exact ⟨h1,
    claim_C7_collections_present.1 stA _ "pw" _ keyPw h1,
    h2, h3,
    claim_C7_collections_present.2 stA "pw" "s1" "t1" "av" _ h2 h3⟩

/-!
Fixtures for the password-change and import-failure scenarios: a vault
created with password "pw1", whose envelope (exported file and persisted
store record) is encrypted under the key derived from "pw1".
-/

/-- The key the current derivation produces for the password "pw1". -/
def key1 : String := pbkdf2Sha256B64 "pw1" defaultSalt

/-- The key the current derivation produces for the password "pw2". -/
def key2 : String := pbkdf2Sha256B64 "pw2" defaultSalt

/-- The credential record stored for password "pw1". -/
def authPw1 : AuthData := ⟨"s0", sha256Hex key1, "t0", "t0"⟩

/-- A logged-in state for the "pw1" vault: credential record, session and
encryption keys for "pw1", the document in memory, and the persisted
encrypted record under `key1`. -/
def stOld : AppState String :=
  ⟨some authPw1, some key1, some key1, some docA, none, some ⟨docA, key1⟩⟩

/-- The exported vault file of the "pw1" vault (envelope under `key1`). -/
def fileOld : VFile String :=
  VFile.parsed (some "secure-vault") (some ⟨docA, key1⟩)

/-- C3: changePassword succeeds but never re-encodes the persisted
ciphertext: after `changePassword("pw1","pw2")` the stored encrypted vault is
byte-identical (still under the old key), the new session key cannot decrypt
it, importing/unlocking the stored envelope with the new password fails with
the wrong-password error while the old password still decrypts it, and
authentication with the old password is rejected — so the vault data is
unreachable after the change, contradicting the claim that the ciphertext is
re-encoded under the new key. -/
theorem claim_C3_change_password_no_reencode :
    ((changePassword stOld "pw1" "pw2" "s1" "t1").1 = true) ∧
    ((changePassword stOld "pw1" "pw2" "s1" "t1").2.dbStore = stOld.dbStore) ∧
    ((changePassword stOld "pw1" "pw2" "s1" "t1").2.encryptionKey = some key2) ∧
    (decryptData (some key2) (some (⟨docA, key1⟩ : Ciphertext (VaultData String)))
      = none) ∧
    ((authenticateUser (changePassword stOld "pw1" "pw2" "s1" "t1").2 "pw1").1
      = false) ∧
    ((dbImport (changePassword stOld "pw1" "pw2" "s1" "t1").2 (some fileOld)
        "pw2").1 = ImportOutcome.wrongPassword) ∧
    ((dbImport (changePassword stOld "pw1" "pw2" "s1" "t1").2 (some fileOld)
        "pw1").1 = ImportOutcome.success docA key1) := by
  decide

/-- C4: import failure is not atomic — importing a valid "pw1" envelope with
a wrong password through the auth-level `importDatabaseWithPassword` returns
`false` but has already replaced the stored credential record, cleared the
persisted vault store and swapped the session key (a wrong password destroys
the existing vault's credentials); and the database-level
`importDatabaseWithPassword` leaves the in-memory encryption key clobbered
with the last candidate it tried (the raw password) when every candidate
fails. -/
theorem claim_C4_import_failure_not_atomic :
    ((authImportDatabaseWithPassword stOld (some fileOld) "wrongpw" "s2" "t2").1
      = false) ∧
    ((authImportDatabaseWithPassword stOld (some fileOld) "wrongpw" "s2" "t2").2.auth
      ≠ stOld.auth) ∧
    (stOld.dbStore ≠ none) ∧
    ((authImportDatabaseWithPassword stOld (some fileOld) "wrongpw" "s2" "t2").2.dbStore
      = none) ∧
    ((authImportDatabaseWithPassword stOld (some fileOld) "wrongpw" "s2" "t2").2.sessionKey
      ≠ stOld.sessionKey) ∧
    ((dbImport stOld (some fileOld) "wrongpw").1 = ImportOutcome.wrongPassword) ∧
    ((dbImport stOld (some fileOld) "wrongpw").2.encryptionKey = some "wrongpw") ∧
    (stOld.encryptionKey = some key1) := by
  decide

/-!
Claim C8: merge semantics.  Well-formedness (ids unique within their own
collection, the documented invariant) and disjointness of the ids touched by
two partial updates.
-/

/-- Keys of an optional collection. -/
def collKeys (o : Option (Coll α)) : List String :=
  (o.getD []).map Prod.fst

/-- Well-formedness of an optional collection: its ids are unique. -/
def collWF (o : Option (Coll α)) : Prop :=
  ((o.getD []).map Prod.fst).Nodup

/-- Well-formedness of a vault document: ids unique within each collection
and among the extra top-level keys (the spec's "ids are unique within their
own collection"). -/
def VaultData.WF (d : VaultData α) : Prop :=
  collWF d.docs ∧ collWF d.files ∧ collWF d.photos ∧
  (d.extra.map Prod.fst).Nodup

instance (d : VaultData α) : Decidable d.WF := by
  unfold VaultData.WF collWF
  infer_instance

/-- Two partial updates touch disjoint ids: per collection (and among the
extra top-level keys), no id appears in both. -/
def VaultData.DisjointIds (a b : VaultData α) : Prop :=
  (∀ k ∈ collKeys a.docs, k ∉ collKeys b.docs) ∧
  (∀ k ∈ collKeys a.files, k ∉ collKeys b.files) ∧
  (∀ k ∈ collKeys a.photos, k ∉ collKeys b.photos) ∧
  (∀ k ∈ a.extra.map Prod.fst, k ∉ b.extra.map Prod.fst)

instance (a b : VaultData α) : Decidable (a.DisjointIds b) := by
  unfold VaultData.DisjointIds
  infer_instance

theorem collWF_some {c : Coll α} (h : collWF (some c)) :
    (c.map Prod.fst).Nodup := h

theorem collWF_imp {o : Option (Coll α)} (h : collWF o) :
    ∀ c, o = some c → (c.map Prod.fst).Nodup := by
  intro c hc
  subst hc
  exact h

theorem collFind_eq_none_of_not_keys {o : Option (Coll α)} {k : String}
    (h : k ∉ collKeys o) : collFind o k = none := by
  cases o with
  | none => rfl
  | some c => exact Coll.find_eq_none_of_not_mem h

theorem mergeVaultData_docs (b : VaultData α) (d : Option (VaultData α))
    (now : String) : (mergeVaultData (some b) d now).docs
      = match d with | none => b.docs | some d => mergeColl b.docs d.docs := by
  cases d <;> rfl

theorem mergeVaultData_files (b : VaultData α) (d : Option (VaultData α))
    (now : String) : (mergeVaultData (some b) d now).files
      = match d with | none => b.files | some d => mergeColl b.files d.files := by
  cases d <;> rfl

theorem mergeVaultData_photos (b : VaultData α) (d : Option (VaultData α))
    (now : String) : (mergeVaultData (some b) d now).photos
      = match d with | none => b.photos | some d => mergeColl b.photos d.photos := by
  cases d <;> rfl

theorem mergeVaultData_extra (b : VaultData α) (d : Option (VaultData α))
    (now : String) : (mergeVaultData (some b) d now).extra
      = match d with | none => b.extra | some d => Coll.assign b.extra d.extra := by
  cases d <;> rfl

theorem mergeVaultData_meta (b : Option (VaultData α)) (d : Option (VaultData α))
    (now : String) : (mergeVaultData b d now).meta = some ⟨1, now, "pbkdf2"⟩ := by
  cases b <;> cases d <;> rfl

/-- Disjointness gives, at every key, that at least one side's lookup is
absent. -/
theorem disjoint_find {a b : Option (Coll α)}
    (h : ∀ k ∈ collKeys a, k ∉ collKeys b) (k : String) :
    collFind a k = none ∨ collFind b k = none := by
  by_cases hk : k ∈ collKeys a
  · exact Or.inr (collFind_eq_none_of_not_keys (h k hk))
  · exact Or.inl (collFind_eq_none_of_not_keys hk)

/-- Option.or is commutative-after-stacking when the two update layers are
disjoint at the key. -/
theorem or_layers_comm {x y b : Option β} (h : x = none ∨ y = none) :
    Option.or y (Option.or x b) = Option.or x (Option.or y b) := by
  rcases h with h | h
  · subst h
    cases y <;> simp [Option.or]
  · subst h
    cases x <;> simp [Option.or]

theorem disjoint_find_coll {a b : Coll α}
    (h : ∀ k ∈ a.map Prod.fst, k ∉ b.map Prod.fst) (k : String) :
    Coll.find a k = none ∨ Coll.find b k = none := by
  by_cases hk : k ∈ a.map Prod.fst
  · exact Or.inr (Coll.find_eq_none_of_not_mem (h k hk))
  · exact Or.inl (Coll.find_eq_none_of_not_mem hk)

theorem mergeVaultData_some_docs (b d : VaultData α) (now : String) :
    (mergeVaultData (some b) (some d) now).docs = mergeColl b.docs d.docs := rfl

theorem mergeVaultData_some_files (b d : VaultData α) (now : String) :
    (mergeVaultData (some b) (some d) now).files = mergeColl b.files d.files := rfl

theorem mergeVaultData_some_photos (b d : VaultData α) (now : String) :
    (mergeVaultData (some b) (some d) now).photos = mergeColl b.photos d.photos := rfl

theorem mergeVaultData_some_extra (b d : VaultData α) (now : String) :
    (mergeVaultData (some b) (some d) now).extra = Coll.assign b.extra d.extra := rfl

theorem mergeColl_comm_isSome (b p1c p2c : Option (Coll α)) :
    (mergeColl (mergeColl b p1c) p2c).isSome
      = (mergeColl (mergeColl b p2c) p1c).isSome := by
  simp [mergeColl_isSome, Bool.or_assoc, Bool.or_comm, Bool.or_left_comm]

theorem mergeColl_comm_layers {p1c p2c : Option (Coll α)} (b : Option (Coll α))
    (w1 : collWF p1c) (w2 : collWF p2c)
    (hj : ∀ k ∈ collKeys p1c, k ∉ collKeys p2c) (k : String) :
    collFind (mergeColl (mergeColl b p1c) p2c) k
      = collFind (mergeColl (mergeColl b p2c) p1c) k := by
  rw [collFind_mergeColl _ (collWF_imp w2) k]
  rw [collFind_mergeColl _ (collWF_imp w1) k]
  rw [collFind_mergeColl _ (collWF_imp w1) k]
  rw [collFind_mergeColl _ (collWF_imp w2) k]
  exact or_layers_comm (disjoint_find hj k)

theorem assign_comm_layers {s1 s2 : Coll α} (b : Coll α)
    (w1 : (s1.map Prod.fst).Nodup) (w2 : (s2.map Prod.fst).Nodup)
    (hj : ∀ k ∈ s1.map Prod.fst, k ∉ s2.map Prod.fst) (k : String) :
    Coll.find (Coll.assign (Coll.assign b s1) s2) k
      = Coll.find (Coll.assign (Coll.assign b s2) s1) k := by
  rw [Coll.find_assign _ w2 k]
  rw [Coll.find_assign _ w1 k]
  rw [Coll.find_assign _ w1 k]
  rw [Coll.find_assign _ w2 k]
  exact or_layers_comm (disjoint_find_coll hj k)

/-- C8: Merge semantics and commutativity — the merge inside
`saveToSecureStorage` applies the partial's entries on top of the base per
collection (the partial's entry wins at every key it contains, the base's
entry survives everywhere else, so new keys are added, existing keys
overwritten, untouched keys preserved and no entry silently dropped); and for
partials touching disjoint ids, merging in either order yields deep-equal
documents. -/
theorem claim_C8_merge_semantics {α : Type} :
    (∀ (base d : VaultData α) (now k : String), d.WF →
      collFind (mergeVaultData (some base) (some d) now).docs k
        = Option.or (collFind d.docs k) (collFind base.docs k) ∧
      collFind (mergeVaultData (some base) (some d) now).files k
        = Option.or (collFind d.files k) (collFind base.files k) ∧
      collFind (mergeVaultData (some base) (some d) now).photos k
        = Option.or (collFind d.photos k) (collFind base.photos k) ∧
      Coll.find (mergeVaultData (some base) (some d) now).extra k
        = Option.or (Coll.find d.extra k) (Coll.find base.extra k)) ∧
    (∀ (base p1 p2 : VaultData α) (t1 t2 : String),
      p1.WF → p2.WF → p1.DisjointIds p2 →
      VaultData.DeepEq
        (mergeVaultData (some (mergeVaultData (some base) (some p1) t1))
          (some p2) t2)
        (mergeVaultData (some (mergeVaultData (some base) (some p2) t1))
          (some p1) t2)) := by
  constructor
  · intro base d now k hwf
    obtain ⟨h1, h2, h3, h4⟩ := hwf
    refine ⟨?_, ?_, ?_, ?_⟩
    · rw [mergeVaultData_some_docs]
      exact collFind_mergeColl base.docs (collWF_imp h1) k
    · rw [mergeVaultData_some_files]
      exact collFind_mergeColl base.files (collWF_imp h2) k
    · rw [mergeVaultData_some_photos]
      exact collFind_mergeColl base.photos (collWF_imp h3) k
    · rw [mergeVaultData_some_extra]
      exact Coll.find_assign base.extra h4 k
  · intro base p1 p2 t1 t2 hw1 hw2 hdisj
    obtain ⟨w1d, w1f, w1p, w1e⟩ := hw1
    obtain ⟨w2d, w2f, w2p, w2e⟩ := hw2
    obtain ⟨jd, jf, jp, je⟩ := hdisj
    refine ⟨?_, ?_, ?_, ?_, ?_, ?_, ?_, ?_⟩
    · rw [mergeVaultData_some_docs, mergeVaultData_some_docs,
        mergeVaultData_some_docs, mergeVaultData_some_docs]
      exact mergeColl_comm_isSome base.docs p1.docs p2.docs
    · rw [mergeVaultData_some_files, mergeVaultData_some_files,
        mergeVaultData_some_files, mergeVaultData_some_files]
      exact mergeColl_comm_isSome base.files p1.files p2.files
    · rw [mergeVaultData_some_photos, mergeVaultData_some_photos,
        mergeVaultData_some_photos, mergeVaultData_some_photos]
      exact mergeColl_comm_isSome base.photos p1.photos p2.photos
    · intro k
      rw [mergeVaultData_some_docs, mergeVaultData_some_docs,
        mergeVaultData_some_docs, mergeVaultData_some_docs]
      exact mergeColl_comm_layers base.docs w1d w2d jd k
    · intro k
      rw [mergeVaultData_some_files, mergeVaultData_some_files,
        mergeVaultData_some_files, mergeVaultData_some_files]
      exact mergeColl_comm_layers base.files w1f w2f jf k
    · intro k
      rw [mergeVaultData_some_photos, mergeVaultData_some_photos,
        mergeVaultData_some_photos, mergeVaultData_some_photos]
      exact mergeColl_comm_layers base.photos w1p w2p jp k
    · intro k
      rw [mergeVaultData_some_extra, mergeVaultData_some_extra,
        mergeVaultData_some_extra, mergeVaultData_some_extra]
      exact assign_comm_layers base.extra w1e w2e je k
    · rw [mergeVaultData_meta, mergeVaultData_meta]

/-- A partial update touching two doc ids and an extra top-level key. -/
def partC8 : VaultData String :=
  ⟨some [("d1", "bye"), ("d2", "new")], none, none, none, [("k", "v")]⟩

/-- A partial update touching only the doc id "a". -/
def p1C8 : VaultData String := ⟨some [("a", "1")], none, none, none, []⟩

/-- A partial update touching only the doc id "b". -/
def p2C8 : VaultData String := ⟨some [("b", "2")], none, none, none, []⟩

/-- C8 witness: the merge theorem applied to concrete documents — a partial
overwriting one id and adding another, and two disjoint partials merged in
both orders. -/
theorem claim_C8_merge_semantics_witness :
    partC8.WF ∧ p1C8.WF ∧ p2C8.WF ∧ p1C8.DisjointIds p2C8 ∧
    (collFind (mergeVaultData (some docA) (some partC8) "t0").docs "d1"
      = Option.or (collFind partC8.docs "d1") (collFind docA.docs "d1")) ∧
    VaultData.DeepEq
      (mergeVaultData (some (mergeVaultData (some docA) (some p1C8) "t1"))
        (some p2C8) "t2")
      (mergeVaultData (some (mergeVaultData (some docA) (some p2C8) "t1"))
        (some p1C8) "t2") := by
  have hwf : (partC8 : VaultData String).WF := by decide
  have hw1 : (p1C8 : VaultData String).WF := by decide
  have hw2 : (p2C8 : VaultData String).WF := by decide
  have hdisj : (p1C8 : VaultData String).DisjointIds p2C8 := by decide
  exact ⟨hwf, hw1, hw2, hdisj,
    (claim_C8_merge_semantics.1 docA partC8 "t0" "d1" hwf).1,
    claim_C8_merge_semantics.2 docA p1C8 p2C8 "t1" "t2" hw1 hw2 hdisj⟩

end SecureVault
